import Mathlib

/-!
Verification of the shard-identifier resolution core of the compactor
configuration module (`compactor2/src/config.rs`, `Config::fetch_shard_id`).

The catalog is an external collaborator: it is embedded as a pair of
attempt-indexed lookup functions, so that transient transport failures on
early attempts can be expressed.  The retrying invoker (`Backoff` /
`retry_all_errors`, from the backoff crate of this repository, not part of
the sources here) is modelled from the spec.  Machine integers (`i64` topic and
shard identifiers, `i32` shard indices) carry no arithmetic in this code, so
they are embedded as `Int`.

Executions are traced: every catalog invocation and every backoff sleep is
recorded as an event, so that claims about "which lookups run, how often,
and in which order" are statements about the trace.  Since the retry policy
is "retry forever", the embedding is fuel-indexed: `none` means the
resolution is still suspended (it has not yet terminated within `fuel`
attempts per phase), never an error.
-/

/-- A transport / server error returned by a catalog call (the retryable
kind of failure). -/
structure TransportError where
  msg : String
deriving Repr, DecidableEq

/-- A topic record held by the catalog.  The source `TopicMetadata` carries
an id and a name; only the id is read by `fetch_shard_id` (via `topic.id`). -/
structure TopicRecord where
  id : Int
  name : String
deriving Repr, DecidableEq

/-- A shard record held by the catalog.  The source `Shard` carries its id,
its topic id and its shard index; `fetch_shard_id` reads `shard.id`. -/
structure ShardRecord where
  id : Int
  topic_id : Int
  shard_index : Int
deriving Repr, DecidableEq

/-- The catalog handle, offering the two read operations used by
`fetch_shard_id`: `topics().get_by_name(name)` and
`shards().get_by_topic_id_and_shard_index(topic_id, shard_index)`.
Each operation takes the attempt number (how many times this resolution has
already invoked it) so that transient failures followed by success can be
modelled; a real catalog whose answers do not depend on timing is embedded
as a constant function of that argument. -/
structure Catalog where
  topics_get_by_name : String → Nat → Except TransportError (Option TopicRecord)
  shards_get_by_topic_id_and_shard_index :
    Int → Int → Nat → Except TransportError (Option ShardRecord)

/-- Modelled from the spec: the `BackoffConfig` of the backoff crate of
this repository (not among the sources here).  Per the data model of the
spec it describes "delay growth between retry attempts (initial delay, growth
factor, maximum delay, optional attempt cap)".  Delays are abstract ticks
(`Nat`). -/
structure BackoffConfig where
  init_backoff : Nat
  base : Nat
  max_backoff : Nat
  attempt_cap : Option Nat
deriving Repr, DecidableEq

namespace Backoff

/-- Modelled from the spec: the delay the schedule prescribes before retry
number `n` — exponential growth from the initial delay, capped at the
maximum delay. -/
def delay (cfg : BackoffConfig) (n : Nat) : Nat :=
  min (cfg.init_backoff * cfg.base ^ n) cfg.max_backoff

/-- Whether the optional attempt cap forbids attempt number `k`. -/
def capReached (cfg : BackoffConfig) (k : Nat) : Bool :=
  match cfg.attempt_cap with
  | some c => c ≤ k
  | none => false

end Backoff

/-- The error a retry loop can report: only exceeding the optional attempt
cap.  With no cap ("retry forever") this is never produced. -/
inductive BackoffError where
  | deadlineExceeded
deriving Repr, DecidableEq

/-- An observable event of a resolution run: a catalog invocation (one of
the two read lookups, with its arguments) or a backoff sleep. -/
inductive Event where
  | topicLookup (name : String)
  | shardLookup (topicId : Int) (index : Int)
  | sleep (d : Nat)
deriving Repr, DecidableEq

/-- Whether an event is a backoff sleep. -/
def Event.isSleep : Event → Bool
  | .sleep _ => true
  | _ => false

/-- Whether an event is a topic lookup. -/
def Event.isTopicLookup : Event → Bool
  | .topicLookup _ => true
  | _ => false

/-- Whether an event is a shard lookup. -/
def Event.isShardLookup : Event → Bool
  | .shardLookup _ _ => true
  | _ => false

/-- The delays slept during a trace, in order. -/
def sleepsOf (tr : List Event) : List Nat :=
  tr.filterMap fun e =>
    match e with
    | .sleep d => some d
    | _ => none

/-- How many times the traced operation was invoked (all non-sleep events
of a single retry loop trace are invocations of its operation). -/
def invocationCount (tr : List Event) : Nat :=
  (tr.filter fun e => !e.isSleep).length

/-- How many topic lookups a trace contains. -/
def topicLookupCount (tr : List Event) : Nat :=
  (tr.filter Event.isTopicLookup).length

/-- How many shard lookups a trace contains. -/
def shardLookupCount (tr : List Event) : Nat :=
  (tr.filter Event.isShardLookup).length

/-- Modelled from the spec: `Backoff::retry_all_errors` of the backoff
crate of this repository.  It invokes the operation; on success it returns the value
immediately, on any failure it sleeps the next scheduled delay and retries,
with no declared failure path unless the optional attempt cap is set.
`k` is the number of attempts already made, `fuel` bounds how far the
unbounded loop is observed: `none` means the loop is still running after
`fuel` more attempts.  Each invocation appends the event `ev`; each sleep
appends a `sleep` event with the scheduled delay. -/
def retryWithBackoff {A : Type} (cfg : BackoffConfig) (ev : Event)
    (op : Nat → Except TransportError A) :
    Nat → Nat → Option (Except BackoffError A × List Event)
  | 0, _ => none
  | fuel + 1, k =>
    if Backoff.capReached cfg k then
      some (.error .deadlineExceeded, [])
    else
      match op k with
      | .ok a => some (.ok a, [ev])
      | .error _ =>
        match retryWithBackoff cfg ev op fuel (k + 1) with
        | none => none
        | some (r, tr) => some (r, ev :: .sleep (Backoff.delay cfg k) :: tr)

/-- The result of one `fetch_shard_id` resolution.  The source either
returns a `ShardId` or terminates the process fatally; the three fatal
constructors correspond to the two explicit missing-record aborts and to
the abort of `expect("retry forever")` on a retry-loop error.  There is no
recoverable-error constructor, matching the source return type `ShardId`. -/
inductive FetchResult where
  | ok (shardId : Int)
  | panicTopicNotFound (topicName : String)
  | panicShardNotFound (topicName : String) (shardIndex : Int)
  | panicRetryForever
deriving Repr, DecidableEq

/-- The fatal diagnostic a result carries, with the exact formats of the
source (`Topic {} not found`, `Topic {} and Shard Index {} not found`);
`none` for a successful result. -/
def FetchResult.message : FetchResult → Option String
  | .ok _ => none
  | .panicTopicNotFound n => some ("Topic " ++ n ++ " not found")
  | .panicShardNotFound n i =>
      some ("Topic " ++ n ++ " and Shard Index " ++ toString i ++ " not found")
  | .panicRetryForever => some "retry forever"

/-- Translation of `Config::fetch_shard_id` (compactor2/src/config.rs).
Phase 1 retries `topics().get_by_name(topic_name)` under the backoff
schedule and `expect`s the retry result; a missing topic record aborts with
`Topic {} not found`.  Phase 2 retries
`shards().get_by_topic_id_and_shard_index(topic.id, shard_index)` with a
fresh `Backoff` built from the same schedule and `expect`s likewise; a
missing shard record aborts with `Topic {} and Shard Index {} not found`,
otherwise the `id` of the shard record is returned.  `fuel` bounds the
attempts of each retry loop; `none` means a retry loop is still suspended.  The second
component is the trace of catalog invocations and sleeps, in order. -/
def fetch_shard_id (catalog : Catalog) (backoff_config : BackoffConfig)
    (topic_name : String) (shard_index : Int) (fuel : Nat) :
    Option (FetchResult × List Event) :=
  match retryWithBackoff backoff_config (.topicLookup topic_name)
      (fun k => catalog.topics_get_by_name topic_name k) fuel 0 with
  | none => none
  | some (.error _, tr) => some (.panicRetryForever, tr)
  | some (.ok none, tr) => some (.panicTopicNotFound topic_name, tr)
  | some (.ok (some topic), tr1) =>
    match retryWithBackoff backoff_config (.shardLookup topic.id shard_index)
        (fun k =>
          catalog.shards_get_by_topic_id_and_shard_index topic.id shard_index k)
        fuel 0 with
    | none => none
    | some (.error _, tr2) => some (.panicRetryForever, tr1 ++ tr2)
    | some (.ok none, tr2) =>
        some (.panicShardNotFound topic_name shard_index, tr1 ++ tr2)
    | some (.ok (some shard), tr2) => some (.ok shard.id, tr1 ++ tr2)

/-- The trace of a retry loop that starts at attempt number `k`, fails `n`
times and then succeeds: an invocation event, then alternately the
scheduled sleep and the next invocation. -/
def retryTrace (cfg : BackoffConfig) (ev : Event) : Nat → Nat → List Event
  | _, 0 => [ev]
  | k, n + 1 => ev :: .sleep (Backoff.delay cfg k) :: retryTrace cfg ev (k + 1) n

/-- A backoff schedule with no attempt cap: the "retry forever" policy the
source uses. -/
def foreverSchedule : BackoffConfig :=
  { init_backoff := 1, base := 2, max_backoff := 500, attempt_cap := none }

/-- A concrete catalog for the scenarios of the spec: topic "sensors" has
identifier 7, shard index 2 under topic 7 has identifier 42; every call
succeeds on its first attempt. -/
def sensorsCatalog : Catalog where
  topics_get_by_name := fun name _ =>
    if name = "sensors" then .ok (some ⟨7, "sensors"⟩) else .ok none
  shards_get_by_topic_id_and_shard_index := fun topicId index _ =>
    if topicId = 7 ∧ index = 2 then .ok (some ⟨42, 7, 2⟩) else .ok none

/-- A concrete catalog whose topic lookup fails transiently on its first
two attempts and succeeds from the third attempt on; shard lookups always
succeed immediately. -/
def flakyCatalog : Catalog where
  topics_get_by_name := fun name k =>
    if k < 2 then .error ⟨"connection reset"⟩
    else if name = "sensors" then .ok (some ⟨7, "sensors"⟩) else .ok none
  shards_get_by_topic_id_and_shard_index := fun topicId index _ =>
    if topicId = 7 ∧ index = 2 then .ok (some ⟨42, 7, 2⟩) else .ok none

/-- Observing a retry loop with more fuel preserves an outcome that has already been reached: the loop is deterministic and fuel only extends observation. -/
theorem retryWithBackoff_mono {A : Type} (cfg : BackoffConfig) (ev : Event)
    (op : Nat → Except TransportError A) :
    ∀ fuel fuel' k x, fuel ≤ fuel' →
      retryWithBackoff cfg ev op fuel k = some x →
      retryWithBackoff cfg ev op fuel' k = some x := by
  intro fuel
  induction fuel with
  | zero => intro fuel' k x _ h; simp [retryWithBackoff] at h
  | succ n ih =>
    intro fuel' k x hle h
    obtain ⟨m, rfl⟩ : ∃ m, fuel' = m + 1 := ⟨fuel' - 1, by omega⟩
    simp only [retryWithBackoff] at h ⊢
    by_cases hcap : Backoff.capReached cfg k = true
    · simpa [hcap] using h
    · simp only [hcap, Bool.false_eq_true, if_false] at h ⊢
      cases hop : op k with
      | ok a => simpa [hop] using h
      | error e =>
        simp only [hop] at h ⊢
        cases hrec : retryWithBackoff cfg ev op n (k + 1) with
        | none => simp [hrec] at h
        | some p =>
          rw [ih m (k + 1) p (by omega) hrec]
          simpa [hrec] using h

/-- Every event a retry loop records is either its own invocation event or a sleep: a retry loop never performs any other operation. -/
theorem retryWithBackoff_mem {A : Type} (cfg : BackoffConfig) (ev : Event)
    (op : Nat → Except TransportError A) :
    ∀ fuel k x, retryWithBackoff cfg ev op fuel k = some x →
      ∀ e ∈ x.2, e = ev ∨ ∃ d, e = Event.sleep d := by
  intro fuel
  induction fuel with
  | zero => intro k x h; simp [retryWithBackoff] at h
  | succ n ih =>
    intro k x h
    simp only [retryWithBackoff] at h
    by_cases hcap : Backoff.capReached cfg k = true
    · rw [if_pos hcap] at h
      obtain rfl := (Option.some.inj h).symm
      intro e he
      simp at he
    · rw [if_neg hcap] at h
      cases hop : op k with
      | ok a =>
        rw [hop] at h
        obtain rfl := (Option.some.inj h).symm
        intro e he
        simp at he
        exact Or.inl he
      | error e0 =>
        rw [hop] at h
        cases hrec : retryWithBackoff cfg ev op n (k + 1) with
        | none => rw [hrec] at h; simp at h
        | some p =>
          rw [hrec] at h
          obtain rfl := (Option.some.inj h).symm
          intro e he
          simp only [List.mem_cons] at he
          rcases he with rfl | rfl | he
          · exact Or.inl rfl
          · exact Or.inr ⟨_, rfl⟩
          · exact ih (k + 1) p hrec e he

/-- A retry loop whose operation fails on the attempts before attempt `k + N` and succeeds on attempt `k + N` terminates with that success and records the interleaved invocation / sleep trace `retryTrace`. -/
theorem retryWithBackoff_run {A : Type} (cfg : BackoffConfig) (ev : Event)
    (op : Nat → Except TransportError A) (hcap : cfg.attempt_cap = none) :
    ∀ N k (a : A), (∀ j, j < N → ∃ e, op (k + j) = .error e) →
      op (k + N) = .ok a →
      ∀ fuel, N < fuel →
      retryWithBackoff cfg ev op fuel k = some (.ok a, retryTrace cfg ev k N) := by
  intro N
  induction N with
  | zero =>
    intro k a _ hsucc fuel hfuel
    obtain ⟨m, rfl⟩ : ∃ m, fuel = m + 1 := ⟨fuel - 1, by omega⟩
    simp only [Nat.add_zero] at hsucc
    simp [retryWithBackoff, Backoff.capReached, hcap, hsucc, retryTrace]
  | succ N ih =>
    intro k a hfail hsucc fuel hfuel
    obtain ⟨m, rfl⟩ : ∃ m, fuel = m + 1 := ⟨fuel - 1, by omega⟩
    obtain ⟨e0, he0⟩ := hfail 0 (Nat.succ_pos N)
    simp only [Nat.add_zero] at he0
    have hrec := ih (k + 1) a
      (fun j hj => by
        obtain ⟨e, he⟩ := hfail (j + 1) (by omega)
        exact ⟨e, by rw [show k + 1 + j = k + (j + 1) by omega]; exact he⟩)
      (by rw [show k + 1 + N = k + (N + 1) by omega]; exact hsucc)
      m (by omega)
    simp [retryWithBackoff, Backoff.capReached, hcap, he0, hrec, retryTrace]

/-- The sleeps of a fail-then-succeed retry trace are exactly the delays the schedule prescribes, in order. -/
theorem sleepsOf_retryTrace (cfg : BackoffConfig) (ev : Event)
    (hev : ev.isSleep = false) :
    ∀ N k, sleepsOf (retryTrace cfg ev k N) =
      (List.range N).map fun j => Backoff.delay cfg (k + j) := by
  have hnone : (match ev with | .sleep d => some d | _ => (none : Option Nat))
      = none := by
    cases ev <;> simp_all [Event.isSleep]
  intro N
  induction N with
  | zero => intro k; simp [retryTrace, sleepsOf, hnone]
  | succ n ih =>
    intro k
    simp only [retryTrace, sleepsOf, List.filterMap_cons, hnone] at *
    rw [ih (k + 1), List.range_succ_eq_map, List.map_cons, List.map_map]
    refine congrArg₂ _ (by simp) ?_
    apply List.map_congr_left
    intro j _
    simp only [Function.comp]
    congr 1
    omega

/-- Counting events of a retry trace: a predicate that never holds of sleeps selects all `N + 1` invocation events when it holds of the invocation event, and none otherwise. -/
theorem filter_retryTrace_length (cfg : BackoffConfig) (ev : Event) (p : Event → Bool)
    (hs : ∀ d, p (Event.sleep d) = false) :
    ∀ N k, ((retryTrace cfg ev k N).filter p).length =
      if p ev then N + 1 else 0 := by
  intro N
  induction N with
  | zero =>
    intro k
    cases hp : p ev <;> simp [retryTrace, List.filter, hp]
  | succ n ih =>
    intro k
    cases hp : p ev <;>
      simp [retryTrace, List.filter_cons, hp, hs, ih (k + 1)]

/-- Fuel monotonicity lifted to `fetch_shard_id`: once resolution has terminated, observing longer changes nothing. -/
theorem fetch_shard_id_mono (catalog : Catalog) (cfg : BackoffConfig)
    (name : String) (idx : Int) :
    ∀ fuel fuel' x, fuel ≤ fuel' →
      fetch_shard_id catalog cfg name idx fuel = some x →
      fetch_shard_id catalog cfg name idx fuel' = some x := by
  intro fuel fuel' x hle h
  simp only [fetch_shard_id] at h ⊢
  cases h1 : retryWithBackoff cfg (.topicLookup name)
      (fun k => catalog.topics_get_by_name name k) fuel 0 with
  | none => rw [h1] at h; simp at h
  | some p =>
    obtain ⟨r1, tr1⟩ := p
    have h1' := retryWithBackoff_mono cfg _ _ fuel fuel' 0 _ hle h1
    cases r1 with
    | error e =>
      simp only [h1] at h
      simp only [h1']
      exact h
    | ok topt =>
      cases topt with
      | none =>
        simp only [h1] at h
        simp only [h1']
        exact h
      | some topic =>
        simp only [h1] at h
        simp only [h1']
        cases h2 : retryWithBackoff cfg (.shardLookup topic.id idx)
            (fun k =>
              catalog.shards_get_by_topic_id_and_shard_index topic.id idx k)
            fuel 0 with
        | none => rw [h2] at h; simp at h
        | some q =>
          obtain ⟨r2, tr2⟩ := q
          have h2' := retryWithBackoff_mono cfg _ _ fuel fuel' 0 _ hle h2
          simp only [h2] at h
          simp only [h2']
          exact h

/-- Characterization of a full `fetch_shard_id` run in which the topic lookup fails `N1` times and then finds record `t`, and the shard lookup fails `N2` times and then returns `so`. -/
theorem fetch_shard_id_run_found (catalog : Catalog) (cfg : BackoffConfig)
    (name : String) (idx : Int) (hcap : cfg.attempt_cap = none)
    (N1 N2 : Nat) (t : TopicRecord) (so : Option ShardRecord)
    (ht_fail : ∀ j, j < N1 → ∃ e, catalog.topics_get_by_name name j = .error e)
    (ht_succ : catalog.topics_get_by_name name N1 = .ok (some t))
    (hs_fail : ∀ j, j < N2 → ∃ e,
      catalog.shards_get_by_topic_id_and_shard_index t.id idx j = .error e)
    (hs_succ : catalog.shards_get_by_topic_id_and_shard_index t.id idx N2 = .ok so)
    (fuel : Nat) (hfuel1 : N1 < fuel) (hfuel2 : N2 < fuel) :
    fetch_shard_id catalog cfg name idx fuel =
      some ((match so with
              | some s => .ok s.id
              | none => .panicShardNotFound name idx),
        retryTrace cfg (.topicLookup name) 0 N1 ++
          retryTrace cfg (.shardLookup t.id idx) 0 N2) := by
  have h1 := retryWithBackoff_run cfg (.topicLookup name)
    (fun k => catalog.topics_get_by_name name k) hcap N1 0 (some t)
    (fun j hj => by simpa using ht_fail j hj) (by simpa using ht_succ) fuel hfuel1
  have h2 := retryWithBackoff_run cfg (.shardLookup t.id idx)
    (fun k => catalog.shards_get_by_topic_id_and_shard_index t.id idx k) hcap N2 0 so
    (fun j hj => by simpa using hs_fail j hj) (by simpa using hs_succ) fuel hfuel2
  simp only [fetch_shard_id, h1, h2]
  cases so <;> simp

/-- Characterization of a `fetch_shard_id` run in which the topic lookup fails `N` times and then succeeds with no record: the missing-topic fatal result, with only phase-1 events in the trace. -/
theorem fetch_shard_id_run_topic_none (catalog : Catalog) (cfg : BackoffConfig)
    (name : String) (idx : Int) (hcap : cfg.attempt_cap = none)
    (N : Nat)
    (ht_fail : ∀ j, j < N → ∃ e, catalog.topics_get_by_name name j = .error e)
    (ht_succ : catalog.topics_get_by_name name N = .ok none)
    (fuel : Nat) (hfuel : N < fuel) :
    fetch_shard_id catalog cfg name idx fuel =
      some (.panicTopicNotFound name, retryTrace cfg (.topicLookup name) 0 N) := by
  have h1 := retryWithBackoff_run cfg (.topicLookup name)
    (fun k => catalog.topics_get_by_name name k) hcap N 0 none
    (fun j hj => by simpa using ht_fail j hj) (by simpa using ht_succ) fuel hfuel
  simp [fetch_shard_id, h1]

/-- Claim C1: for every catalog in which the topic lookup for `topic_name` returns a record `t` and the shard lookup for `(t.id, shard_index)` returns a record `s`, `fetch_shard_id` returns exactly `s.id`, the id field of the returned shard record. -/
theorem fetch_shard_id_returns_shard_record_id
    (catalog : Catalog) (cfg : BackoffConfig) (name : String) (idx : Int)
    (t : TopicRecord) (s : ShardRecord) (fuel : Nat)
    (hcap : cfg.attempt_cap = none) (hfuel : 0 < fuel)
    (ht : catalog.topics_get_by_name name 0 = .ok (some t))
    (hs : catalog.shards_get_by_topic_id_and_shard_index t.id idx 0 = .ok (some s)) :
    fetch_shard_id catalog cfg name idx fuel =
      some (.ok s.id, [.topicLookup name, .shardLookup t.id idx]) := by
  have h := fetch_shard_id_run_found catalog cfg name idx hcap 0 0 t (some s)
    (fun j hj => absurd hj (Nat.not_lt_zero j)) ht
    (fun j hj => absurd hj (Nat.not_lt_zero j)) hs fuel hfuel hfuel
  simpa [retryTrace] using h

/-- Claim C1 witness: a catalog mapping topic "sensors" to identifier 7 and shard index 2 under topic 7 to identifier 42 resolves ("sensors", 2) to 42. -/
theorem fetch_shard_id_returns_shard_record_id_witness :
    fetch_shard_id sensorsCatalog foreverSchedule "sensors" 2 1 =
      some (.ok 42, [.topicLookup "sensors", .shardLookup 7 2]) :=
  fetch_shard_id_returns_shard_record_id sensorsCatalog foreverSchedule "sensors" 2
    ⟨7, "sensors"⟩ ⟨42, 7, 2⟩ 1 rfl (by decide) rfl rfl

/-- Claim C2: for every catalog in which the topic lookup succeeds (after any number of transient failures) but returns no record, `fetch_shard_id` halts fatally with a diagnostic naming `topic_name`, and the trace holds no shard lookup: phase 2 is never invoked. -/
theorem fetch_shard_id_topic_missing
    (catalog : Catalog) (cfg : BackoffConfig) (name : String) (idx : Int)
    (N fuel : Nat)
    (hcap : cfg.attempt_cap = none) (hfuel : N < fuel)
    (ht_fail : ∀ j, j < N → ∃ e, catalog.topics_get_by_name name j = .error e)
    (ht : catalog.topics_get_by_name name N = .ok none) :
    fetch_shard_id catalog cfg name idx fuel =
      some (.panicTopicNotFound name, retryTrace cfg (.topicLookup name) 0 N) ∧
    shardLookupCount (retryTrace cfg (.topicLookup name) 0 N) = 0 ∧
    (FetchResult.panicTopicNotFound name).message =
      some ("Topic " ++ name ++ " not found") := by
  refine ⟨fetch_shard_id_run_topic_none catalog cfg name idx hcap N ht_fail ht
    fuel hfuel, ?_, rfl⟩
  have h := filter_retryTrace_length cfg (.topicLookup name) Event.isShardLookup
    (fun d => rfl) N 0
  simpa [shardLookupCount, Event.isShardLookup] using h

/-- Claim C2 witness: resolving the absent topic "ghost" terminates fatally referencing "ghost" after a single topic lookup and no shard lookup. -/
theorem fetch_shard_id_topic_missing_witness :
    fetch_shard_id sensorsCatalog foreverSchedule "ghost" 0 1 =
      some (.panicTopicNotFound "ghost", [.topicLookup "ghost"]) ∧
    shardLookupCount [.topicLookup "ghost"] = 0 ∧
    (FetchResult.panicTopicNotFound "ghost").message =
      some "Topic ghost not found" :=
  fetch_shard_id_topic_missing sensorsCatalog foreverSchedule "ghost" 0 0 1 rfl
    (by decide) (fun j hj => absurd hj (Nat.not_lt_zero j)) rfl

/-- Claim C3: for every catalog in which the topic lookup returns a record but the shard lookup for (that topic id, `shard_index`) succeeds with no record, `fetch_shard_id` halts fatally with a diagnostic naming both `topic_name` and `shard_index`. -/
theorem fetch_shard_id_shard_missing
    (catalog : Catalog) (cfg : BackoffConfig) (name : String) (idx : Int)
    (t : TopicRecord) (N1 N2 fuel : Nat)
    (hcap : cfg.attempt_cap = none) (hfuel1 : N1 < fuel) (hfuel2 : N2 < fuel)
    (ht_fail : ∀ j, j < N1 → ∃ e, catalog.topics_get_by_name name j = .error e)
    (ht : catalog.topics_get_by_name name N1 = .ok (some t))
    (hs_fail : ∀ j, j < N2 → ∃ e,
      catalog.shards_get_by_topic_id_and_shard_index t.id idx j = .error e)
    (hs : catalog.shards_get_by_topic_id_and_shard_index t.id idx N2 = .ok none) :
    fetch_shard_id catalog cfg name idx fuel =
      some (.panicShardNotFound name idx,
        retryTrace cfg (.topicLookup name) 0 N1 ++
          retryTrace cfg (.shardLookup t.id idx) 0 N2) ∧
    (FetchResult.panicShardNotFound name idx).message =
      some ("Topic " ++ name ++ " and Shard Index " ++ toString idx ++
        " not found") := by
  refine ⟨?_, rfl⟩
  have h := fetch_shard_id_run_found catalog cfg name idx hcap N1 N2 t none
    ht_fail ht hs_fail hs fuel hfuel1 hfuel2
  simpa using h

/-- Claim C3 witness: topic "sensors" exists (id 7) but shard index 99 under it does not; resolution fails fatally naming "sensors" and 99. -/
theorem fetch_shard_id_shard_missing_witness :
    fetch_shard_id sensorsCatalog foreverSchedule "sensors" 99 1 =
      some (.panicShardNotFound "sensors" 99,
        [.topicLookup "sensors", .shardLookup 7 99]) ∧
    (FetchResult.panicShardNotFound "sensors" 99).message =
      some "Topic sensors and Shard Index 99 not found" :=
  fetch_shard_id_shard_missing sensorsCatalog foreverSchedule "sensors" 99
    ⟨7, "sensors"⟩ 0 0 1 rfl (by decide) (by decide)
    (fun j hj => absurd hj (Nat.not_lt_zero j)) rfl
    (fun j hj => absurd hj (Nat.not_lt_zero j)) rfl

/-- Claim C4: a retried lookup that fails transiently on its first `N` invocations and succeeds on invocation `N + 1` terminates in success, having invoked the operation exactly `N + 1` times with exactly `N` backoff delays between attempts, each the delay the schedule prescribes. -/
theorem retry_all_errors_transient_then_success {A : Type}
    (cfg : BackoffConfig) (ev : Event) (op : Nat → Except TransportError A)
    (N : Nat) (a : A) (fuel : Nat)
    (hcap : cfg.attempt_cap = none) (hev : ev.isSleep = false)
    (hfail : ∀ j, j < N → ∃ e, op j = .error e)
    (hsucc : op N = .ok a) (hfuel : N < fuel) :
    retryWithBackoff cfg ev op fuel 0 = some (.ok a, retryTrace cfg ev 0 N) ∧
    invocationCount (retryTrace cfg ev 0 N) = N + 1 ∧
    sleepsOf (retryTrace cfg ev 0 N) =
      (List.range N).map (Backoff.delay cfg) := by
  refine ⟨?_, ?_, ?_⟩
  · exact retryWithBackoff_run cfg ev op hcap N 0 a
      (fun j hj => by simpa using hfail j hj) (by simpa using hsucc) fuel hfuel
  · have h := filter_retryTrace_length cfg ev (fun e => !e.isSleep)
      (fun d => by simp [Event.isSleep]) N 0
    simpa [invocationCount, hev] using h
  · have h := sleepsOf_retryTrace cfg ev hev N 0
    simpa using h

/-- Claim C4 witness: a topic lookup that fails twice and succeeds on the third attempt terminates with three invocations and the two scheduled delays. -/
theorem retry_all_errors_transient_then_success_witness :
    retryWithBackoff foreverSchedule (.topicLookup "sensors")
        (fun k => flakyCatalog.topics_get_by_name "sensors" k) 3 0 =
      some (.ok (some ⟨7, "sensors"⟩),
        retryTrace foreverSchedule (.topicLookup "sensors") 0 2) ∧
    invocationCount (retryTrace foreverSchedule (.topicLookup "sensors") 0 2) =
      3 ∧
    sleepsOf (retryTrace foreverSchedule (.topicLookup "sensors") 0 2) =
      (List.range 2).map (Backoff.delay foreverSchedule) :=
  retry_all_errors_transient_then_success foreverSchedule (.topicLookup "sensors")
    (fun k => flakyCatalog.topics_get_by_name "sensors" k) 2
    (some ⟨7, "sensors"⟩) 3 rfl rfl
    (fun j hj => ⟨⟨"connection reset"⟩, by interval_cases j <;> rfl⟩)
    rfl (by decide)

/-- Claim C5: in every terminated `fetch_shard_id` run, any shard lookup in the trace happens only after phase 1 has completed with a topic record of this same run (the phase-1 prefix of the trace holds no shard lookup), and is invoked with exactly the id of that record and the given shard index, never a stale identifier. -/
theorem fetch_shard_id_phase2_uses_phase1_topic_id
    (catalog : Catalog) (cfg : BackoffConfig) (name : String) (idx : Int)
    (fuel : Nat) (r : FetchResult) (tr : List Event)
    (h : fetch_shard_id catalog cfg name idx fuel = some (r, tr)) :
    ∀ tid i, Event.shardLookup tid i ∈ tr →
      ∃ t tr1 tr2,
        retryWithBackoff cfg (.topicLookup name)
            (fun k => catalog.topics_get_by_name name k) fuel 0 =
          some (.ok (some t), tr1) ∧
        tr = tr1 ++ tr2 ∧
        (∀ tid2 i2, Event.shardLookup tid2 i2 ∉ tr1) ∧
        tid = t.id ∧ i = idx := by
  intro tid i hmem
  simp only [fetch_shard_id] at h
  cases h1 : retryWithBackoff cfg (.topicLookup name)
      (fun k => catalog.topics_get_by_name name k) fuel 0 with
  | none => rw [h1] at h; simp at h
  | some p =>
    obtain ⟨r1, tr1⟩ := p
    have hno1 : ∀ tid2 i2, Event.shardLookup tid2 i2 ∉ tr1 := by
      intro tid2 i2 hin
      rcases retryWithBackoff_mem cfg (.topicLookup name)
        (fun k => catalog.topics_get_by_name name k) fuel 0 (r1, tr1) h1
        _ hin with h' | ⟨d, h'⟩ <;> simp at h'
    cases r1 with
    | error e1 =>
      simp only [h1, Option.some.injEq, Prod.mk.injEq] at h
      obtain ⟨rfl, rfl⟩ := h
      exact absurd hmem (hno1 tid i)
    | ok topt =>
      cases topt with
      | none =>
        simp only [h1, Option.some.injEq, Prod.mk.injEq] at h
        obtain ⟨rfl, rfl⟩ := h
        exact absurd hmem (hno1 tid i)
      | some topic =>
        simp only [h1] at h
        cases h2 : retryWithBackoff cfg (.shardLookup topic.id idx)
            (fun k =>
              catalog.shards_get_by_topic_id_and_shard_index topic.id idx k)
            fuel 0 with
        | none => rw [h2] at h; simp at h
        | some q =>
          obtain ⟨r2, tr2⟩ := q
          have hmem2 := retryWithBackoff_mem cfg (.shardLookup topic.id idx)
            (fun k =>
              catalog.shards_get_by_topic_id_and_shard_index topic.id idx k)
            fuel 0 (r2, tr2) h2
          have htr : tr = tr1 ++ tr2 := by
            cases r2 with
            | error e2 =>
              simp only [h2, Option.some.injEq, Prod.mk.injEq] at h
              exact h.2.symm
            | ok sopt =>
              cases sopt with
              | none =>
                simp only [h2, Option.some.injEq, Prod.mk.injEq] at h
                exact h.2.symm
              | some s =>
                simp only [h2, Option.some.injEq, Prod.mk.injEq] at h
                exact h.2.symm
          subst htr
          rcases List.mem_append.mp hmem with hin1 | hin2
          · exact absurd hin1 (hno1 tid i)
          · rcases hmem2 _ hin2 with h' | ⟨d, h'⟩
            · obtain ⟨rfl, rfl⟩ := Event.shardLookup.inj h'
              exact ⟨topic, tr1, tr2, rfl, rfl, hno1, rfl, rfl⟩
            · simp at h'

/-- Claim C5 witness: in the "sensors" run, the shard lookup with topic id 7 follows the phase that returned the topic record with id 7. -/
theorem fetch_shard_id_phase2_uses_phase1_topic_id_witness :
    ∃ t tr1 tr2,
      retryWithBackoff foreverSchedule (.topicLookup "sensors")
          (fun k => sensorsCatalog.topics_get_by_name "sensors" k) 1 0 =
        some (.ok (some t), tr1) ∧
      ([Event.topicLookup "sensors", Event.shardLookup 7 2] : List Event) =
        tr1 ++ tr2 ∧
      (∀ tid2 i2, Event.shardLookup tid2 i2 ∉ tr1) ∧
      (7 : Int) = t.id ∧ (2 : Int) = 2 :=
  fetch_shard_id_phase2_uses_phase1_topic_id sensorsCatalog foreverSchedule
    "sensors" 2 1 (.ok 42) [.topicLookup "sensors", .shardLookup 7 2] rfl 7 2
    (by decide)

/-- Claim C6: two `fetch_shard_id` calls with the same catalog, schedule, topic name and shard index that both terminate, even when observed with different fuel, produce the same result and the same trace. -/
theorem fetch_shard_id_idempotent
    (catalog : Catalog) (cfg : BackoffConfig) (name : String) (idx : Int)
    (fuel1 fuel2 : Nat) (r1 r2 : FetchResult) (tr1 tr2 : List Event)
    (h1 : fetch_shard_id catalog cfg name idx fuel1 = some (r1, tr1))
    (h2 : fetch_shard_id catalog cfg name idx fuel2 = some (r2, tr2)) :
    r1 = r2 ∧ tr1 = tr2 := by
  rcases Nat.le_total fuel1 fuel2 with hle | hle
  · have h := (fetch_shard_id_mono catalog cfg name idx fuel1 fuel2 (r1, tr1)
      hle h1).symm.trans h2
    simp only [Option.some.injEq, Prod.mk.injEq] at h
    exact h
  · have h := (fetch_shard_id_mono catalog cfg name idx fuel2 fuel1 (r2, tr2)
      hle h2).symm.trans h1
    simp only [Option.some.injEq, Prod.mk.injEq] at h
    exact ⟨h.1.symm, h.2.symm⟩

/-- Claim C6 witness: resolving ("sensors", 2) twice against the unchanged catalog yields identifier 42 both times. -/
theorem fetch_shard_id_idempotent_witness :
    FetchResult.ok 42 = FetchResult.ok 42 ∧
    ([Event.topicLookup "sensors", Event.shardLookup 7 2] : List Event) =
      [Event.topicLookup "sensors", Event.shardLookup 7 2] :=
  fetch_shard_id_idempotent sensorsCatalog foreverSchedule "sensors" 2 1 5
    (.ok 42) (.ok 42) [.topicLookup "sensors", .shardLookup 7 2]
    [.topicLookup "sensors", .shardLookup 7 2] rfl rfl

/-- Claim C7: under the observed retry-forever policy (no attempt cap), a retry loop never reports an error: every terminated loop carries a success value, so the `expect("retry forever")` branch is unreachable and `fetch_shard_id` never aborts through it; a loop that has not succeeded is still suspended. -/
theorem retry_forever_unreachable_error (cfg : BackoffConfig)
    (hcap : cfg.attempt_cap = none) :
    (∀ (A : Type) (ev : Event) (op : Nat → Except TransportError A)
       (fuel k : Nat) (x : Except BackoffError A × List Event),
       retryWithBackoff cfg ev op fuel k = some x → ∃ a, x.1 = .ok a) ∧
    (∀ (catalog : Catalog) (name : String) (idx : Int) (fuel : Nat)
       (r : FetchResult) (tr : List Event),
       fetch_shard_id catalog cfg name idx fuel = some (r, tr) →
       r ≠ .panicRetryForever) := by
  have hretry : ∀ (A : Type) (ev : Event) (op : Nat → Except TransportError A)
      (fuel k : Nat) (x : Except BackoffError A × List Event),
      retryWithBackoff cfg ev op fuel k = some x → ∃ a, x.1 = .ok a := by
    intro A ev op fuel
    induction fuel with
    | zero => intro k x h; simp [retryWithBackoff] at h
    | succ n ih =>
      intro k x h
      simp only [retryWithBackoff] at h
      rw [if_neg (by simp [Backoff.capReached, hcap])] at h
      cases hop : op k with
      | ok a =>
        rw [hop] at h
        obtain rfl := (Option.some.inj h).symm
        exact ⟨a, rfl⟩
      | error e =>
        rw [hop] at h
        cases hrec : retryWithBackoff cfg ev op n (k + 1) with
        | none => rw [hrec] at h; simp at h
        | some p =>
          rw [hrec] at h
          obtain rfl := (Option.some.inj h).symm
          exact ih (k + 1) p hrec
  refine ⟨hretry, ?_⟩
  intro catalog name idx fuel r tr h
  simp only [fetch_shard_id] at h
  cases h1 : retryWithBackoff cfg (.topicLookup name)
      (fun k => catalog.topics_get_by_name name k) fuel 0 with
  | none => rw [h1] at h; simp at h
  | some p =>
    obtain ⟨r1, tr1⟩ := p
    obtain ⟨a1, ha1⟩ := hretry _ _ _ fuel 0 (r1, tr1) h1
    simp only at ha1
    subst ha1
    cases a1 with
    | none =>
      simp only [h1, Option.some.injEq, Prod.mk.injEq] at h
      rw [← h.1]
      simp
    | some topic =>
      simp only [h1] at h
      cases h2 : retryWithBackoff cfg (.shardLookup topic.id idx)
          (fun k =>
            catalog.shards_get_by_topic_id_and_shard_index topic.id idx k)
          fuel 0 with
      | none => rw [h2] at h; simp at h
      | some q =>
        obtain ⟨r2, tr2⟩ := q
        obtain ⟨a2, ha2⟩ := hretry _ _ _ fuel 0 (r2, tr2) h2
        simp only at ha2
        subst ha2
        cases a2 with
        | none =>
          simp only [h2, Option.some.injEq, Prod.mk.injEq] at h
          rw [← h.1]
          simp
        | some s =>
          simp only [h2, Option.some.injEq, Prod.mk.injEq] at h
          rw [← h.1]
          simp

/-- Claim C7 witness: the terminated "sensors" resolution did not abort through the retry-error branch. -/
theorem retry_forever_unreachable_error_witness :
    FetchResult.ok 42 ≠ FetchResult.panicRetryForever :=
  (retry_forever_unreachable_error foreverSchedule rfl).2 sensorsCatalog
    "sensors" 2 1 (.ok 42) [.topicLookup "sensors", .shardLookup 7 2] rfl

/-- Claim C8: every terminated `fetch_shard_id` run either returns the id of a shard record actually found by the shard lookup, or ends in one of the fatal aborts; there is no recoverable-error result and no placeholder identifier when a lookup found nothing. -/
theorem fetch_shard_id_two_outcomes
    (catalog : Catalog) (cfg : BackoffConfig) (name : String) (idx : Int)
    (fuel : Nat) (r : FetchResult) (tr : List Event)
    (h : fetch_shard_id catalog cfg name idx fuel = some (r, tr)) :
    (∃ t s tr1 tr2,
       retryWithBackoff cfg (.topicLookup name)
           (fun k => catalog.topics_get_by_name name k) fuel 0 =
         some (.ok (some t), tr1) ∧
       retryWithBackoff cfg (.shardLookup t.id idx)
           (fun k =>
             catalog.shards_get_by_topic_id_and_shard_index t.id idx k)
           fuel 0 = some (.ok (some s), tr2) ∧
       r = .ok s.id) ∨
    r = .panicTopicNotFound name ∨ r = .panicShardNotFound name idx ∨
    r = .panicRetryForever := by
  simp only [fetch_shard_id] at h
  cases h1 : retryWithBackoff cfg (.topicLookup name)
      (fun k => catalog.topics_get_by_name name k) fuel 0 with
  | none => rw [h1] at h; simp at h
  | some p =>
    obtain ⟨r1, tr1⟩ := p
    cases r1 with
    | error e1 =>
      simp only [h1, Option.some.injEq, Prod.mk.injEq] at h
      exact Or.inr (Or.inr (Or.inr h.1.symm))
    | ok topt =>
      cases topt with
      | none =>
        simp only [h1, Option.some.injEq, Prod.mk.injEq] at h
        exact Or.inr (Or.inl h.1.symm)
      | some topic =>
        simp only [h1] at h
        cases h2 : retryWithBackoff cfg (.shardLookup topic.id idx)
            (fun k =>
              catalog.shards_get_by_topic_id_and_shard_index topic.id idx k)
            fuel 0 with
        | none => rw [h2] at h; simp at h
        | some q =>
          obtain ⟨r2, tr2⟩ := q
          cases r2 with
          | error e2 =>
            simp only [h2, Option.some.injEq, Prod.mk.injEq] at h
            exact Or.inr (Or.inr (Or.inr h.1.symm))
          | ok sopt =>
            cases sopt with
            | none =>
              simp only [h2, Option.some.injEq, Prod.mk.injEq] at h
              exact Or.inr (Or.inr (Or.inl h.1.symm))
            | some s =>
              simp only [h2, Option.some.injEq, Prod.mk.injEq] at h
              exact Or.inl ⟨topic, s, tr1, tr2, rfl, h2, h.1.symm⟩

/-- Claim C8 witness: the "sensors" run falls into the successful-outcome case. -/
theorem fetch_shard_id_two_outcomes_witness :
    (∃ t s tr1 tr2,
       retryWithBackoff foreverSchedule (.topicLookup "sensors")
           (fun k => sensorsCatalog.topics_get_by_name "sensors" k) 1 0 =
         some (.ok (some t), tr1) ∧
       retryWithBackoff foreverSchedule (.shardLookup t.id 2)
           (fun k =>
             sensorsCatalog.shards_get_by_topic_id_and_shard_index t.id 2 k)
           1 0 = some (.ok (some s), tr2) ∧
       FetchResult.ok 42 = .ok s.id) ∨
    FetchResult.ok 42 = .panicTopicNotFound "sensors" ∨
    FetchResult.ok 42 = .panicShardNotFound "sensors" 2 ∨
    FetchResult.ok 42 = .panicRetryForever :=
  fetch_shard_id_two_outcomes sensorsCatalog foreverSchedule "sensors" 2 1
    (.ok 42) [.topicLookup "sensors", .shardLookup 7 2] rfl

/-- Claim C9: the trace of every terminated `fetch_shard_id` run holds only topic lookups for `topic_name`, shard lookups for `shard_index`, and sleeps: the two read operations and backoff waits are the only effects, and the catalog and schedule values are immutable inputs of the embedding, never modified. -/
theorem fetch_shard_id_reads_only
    (catalog : Catalog) (cfg : BackoffConfig) (name : String) (idx : Int)
    (fuel : Nat) (r : FetchResult) (tr : List Event)
    (h : fetch_shard_id catalog cfg name idx fuel = some (r, tr)) :
    ∀ e ∈ tr, e = .topicLookup name ∨ (∃ tid, e = .shardLookup tid idx) ∨
      ∃ d, e = .sleep d := by
  intro e he
  simp only [fetch_shard_id] at h
  cases h1 : retryWithBackoff cfg (.topicLookup name)
      (fun k => catalog.topics_get_by_name name k) fuel 0 with
  | none => rw [h1] at h; simp at h
  | some p =>
    obtain ⟨r1, tr1⟩ := p
    have hm1 := retryWithBackoff_mem cfg (.topicLookup name)
      (fun k => catalog.topics_get_by_name name k) fuel 0 (r1, tr1) h1
    cases r1 with
    | error e1 =>
      simp only [h1, Option.some.injEq, Prod.mk.injEq] at h
      obtain ⟨rfl, rfl⟩ := h
      rcases hm1 e he with h' | ⟨d, h'⟩
      · exact Or.inl h'
      · exact Or.inr (Or.inr ⟨d, h'⟩)
    | ok topt =>
      cases topt with
      | none =>
        simp only [h1, Option.some.injEq, Prod.mk.injEq] at h
        obtain ⟨rfl, rfl⟩ := h
        rcases hm1 e he with h' | ⟨d, h'⟩
        · exact Or.inl h'
        · exact Or.inr (Or.inr ⟨d, h'⟩)
      | some topic =>
        simp only [h1] at h
        cases h2 : retryWithBackoff cfg (.shardLookup topic.id idx)
            (fun k =>
              catalog.shards_get_by_topic_id_and_shard_index topic.id idx k)
            fuel 0 with
        | none => rw [h2] at h; simp at h
        | some q =>
          obtain ⟨r2, tr2⟩ := q
          have hm2 := retryWithBackoff_mem cfg (.shardLookup topic.id idx)
            (fun k =>
              catalog.shards_get_by_topic_id_and_shard_index topic.id idx k)
            fuel 0 (r2, tr2) h2
          have htr : tr = tr1 ++ tr2 := by
            cases r2 with
            | error e2 =>
              simp only [h2, Option.some.injEq, Prod.mk.injEq] at h
              exact h.2.symm
            | ok sopt =>
              cases sopt with
              | none =>
                simp only [h2, Option.some.injEq, Prod.mk.injEq] at h
                exact h.2.symm
              | some s =>
                simp only [h2, Option.some.injEq, Prod.mk.injEq] at h
                exact h.2.symm
          subst htr
          rcases List.mem_append.mp he with hin | hin
          · rcases hm1 e hin with h' | ⟨d, h'⟩
            · exact Or.inl h'
            · exact Or.inr (Or.inr ⟨d, h'⟩)
          · rcases hm2 e hin with h' | ⟨d, h'⟩
            · subst h'
              exact Or.inr (Or.inl ⟨topic.id, rfl⟩)
            · exact Or.inr (Or.inr ⟨d, h'⟩)

/-- Claim C9 witness: the first event of the "sensors" run is the topic read. -/
theorem fetch_shard_id_reads_only_witness :
    Event.topicLookup "sensors" = Event.topicLookup "sensors" ∨
    (∃ tid, Event.topicLookup "sensors" = Event.shardLookup tid 2) ∨
    ∃ d, Event.topicLookup "sensors" = Event.sleep d :=
  fetch_shard_id_reads_only sensorsCatalog foreverSchedule "sensors" 2 1
    (.ok 42) [.topicLookup "sensors", .shardLookup 7 2] rfl
    (.topicLookup "sensors") (by decide)

/-- Claim C10: a run whose topic lookup succeeds after `N1` transient failures and whose shard lookup returns after `N2` performs exactly `N1 + 1` topic lookups and `N2 + 1` shard lookups (one each, with no delay, when both succeed at once, `N1 = N2 = 0`); the phase-2 sleeps start again from the first scheduled delay regardless of `N1`, since each loop builds a fresh backoff state, and the topic-lookup count never depends on phase-2 failures. -/
theorem fetch_shard_id_lookup_counts
    (catalog : Catalog) (cfg : BackoffConfig) (name : String) (idx : Int)
    (t : TopicRecord) (so : Option ShardRecord) (N1 N2 fuel : Nat)
    (hcap : cfg.attempt_cap = none) (hfuel1 : N1 < fuel) (hfuel2 : N2 < fuel)
    (ht_fail : ∀ j, j < N1 → ∃ e, catalog.topics_get_by_name name j = .error e)
    (ht : catalog.topics_get_by_name name N1 = .ok (some t))
    (hs_fail : ∀ j, j < N2 → ∃ e,
      catalog.shards_get_by_topic_id_and_shard_index t.id idx j = .error e)
    (hs : catalog.shards_get_by_topic_id_and_shard_index t.id idx N2 = .ok so) :
    ∃ res,
      fetch_shard_id catalog cfg name idx fuel =
        some (res,
          retryTrace cfg (.topicLookup name) 0 N1 ++
            retryTrace cfg (.shardLookup t.id idx) 0 N2) ∧
      topicLookupCount
        (retryTrace cfg (.topicLookup name) 0 N1 ++
          retryTrace cfg (.shardLookup t.id idx) 0 N2) = N1 + 1 ∧
      shardLookupCount
        (retryTrace cfg (.topicLookup name) 0 N1 ++
          retryTrace cfg (.shardLookup t.id idx) 0 N2) = N2 + 1 ∧
      sleepsOf (retryTrace cfg (.shardLookup t.id idx) 0 N2) =
        (List.range N2).map (Backoff.delay cfg) ∧
      sleepsOf
        (retryTrace cfg (.topicLookup name) 0 N1 ++
          retryTrace cfg (.shardLookup t.id idx) 0 N2) =
        (List.range N1).map (Backoff.delay cfg) ++
          (List.range N2).map (Backoff.delay cfg) := by
  refine ⟨_, fetch_shard_id_run_found catalog cfg name idx hcap N1 N2 t so
    ht_fail ht hs_fail hs fuel hfuel1 hfuel2, ?_, ?_, ?_, ?_⟩
  · have hA := filter_retryTrace_length cfg (.topicLookup name)
      Event.isTopicLookup (fun d => rfl) N1 0
    have hB := filter_retryTrace_length cfg (.shardLookup t.id idx)
      Event.isTopicLookup (fun d => rfl) N2 0
    simp only [topicLookupCount, List.filter_append, List.length_append,
      hA, hB]
    simp [Event.isTopicLookup]
  · have hA := filter_retryTrace_length cfg (.topicLookup name)
      Event.isShardLookup (fun d => rfl) N1 0
    have hB := filter_retryTrace_length cfg (.shardLookup t.id idx)
      Event.isShardLookup (fun d => rfl) N2 0
    simp only [shardLookupCount, List.filter_append, List.length_append,
      hA, hB]
    simp [Event.isShardLookup]
  · simpa using sleepsOf_retryTrace cfg (.shardLookup t.id idx) rfl N2 0
  · have hA := sleepsOf_retryTrace cfg (.topicLookup name) rfl N1 0
    have hB := sleepsOf_retryTrace cfg (.shardLookup t.id idx) rfl N2 0
    simp only [sleepsOf] at hA hB ⊢
    simp only [List.filterMap_append, hA, hB]
    simp

/-- Claim C10 witness: with two transient topic failures, the run performs three topic lookups, one shard lookup, and only the two phase-1 delays. -/
theorem fetch_shard_id_lookup_counts_witness :
    ∃ res,
      fetch_shard_id flakyCatalog foreverSchedule "sensors" 2 3 =
        some (res,
          retryTrace foreverSchedule (.topicLookup "sensors") 0 2 ++
            retryTrace foreverSchedule (.shardLookup 7 2) 0 0) ∧
      topicLookupCount
        (retryTrace foreverSchedule (.topicLookup "sensors") 0 2 ++
          retryTrace foreverSchedule (.shardLookup 7 2) 0 0) = 3 ∧
      shardLookupCount
        (retryTrace foreverSchedule (.topicLookup "sensors") 0 2 ++
          retryTrace foreverSchedule (.shardLookup 7 2) 0 0) = 1 ∧
      sleepsOf (retryTrace foreverSchedule (.shardLookup 7 2) 0 0) =
        (List.range 0).map (Backoff.delay foreverSchedule) ∧
      sleepsOf
        (retryTrace foreverSchedule (.topicLookup "sensors") 0 2 ++
          retryTrace foreverSchedule (.shardLookup 7 2) 0 0) =
        (List.range 2).map (Backoff.delay foreverSchedule) ++
          (List.range 0).map (Backoff.delay foreverSchedule) :=
  fetch_shard_id_lookup_counts flakyCatalog foreverSchedule "sensors" 2
    ⟨7, "sensors"⟩ (some ⟨42, 7, 2⟩) 2 0 3 rfl (by decide) (by decide)
    (fun j hj => ⟨⟨"connection reset"⟩, by interval_cases j <;> rfl⟩) rfl
    (fun j hj => absurd hj (Nat.not_lt_zero j)) rfl
